import Mathlib

/-!
Verification of the plunge file-synchronization utility.

This development shallowly embeds the core algorithms of the plunge
repository (plunge.c, jb.c, path.c) in Lean 4 and proves properties of
them.  The filesystem is modelled by stat oracles: a function from an
absolute pathname (a list of characters) to a stat result.  C `int` and
`size_t`/`time_t` values that matter for control flow are modelled with
Nat/Int; widths used by the program are small (≤ 78), far from any
overflow boundary.
-/

namespace Plunge

/-! ## Data model: stat results (sys/stat.h as used by plunge.c) -/

/-- File kind, abstracting `st_mode & S_IFMT`: a regular file (`S_IFREG`),
a directory (`S_IFDIR`), or anything else. -/
inductive FKind where
  | reg
  | dir
  | other
  deriving DecidableEq

/-- The fields of `struct stat` that the program reads:
`st_mode & S_IFMT` (as `kind`), `st_size`, `st_mtime`. -/
structure FileStat where
  kind : FKind
  size : Nat
  mtime : Int
  deriving DecidableEq

/-- Outcome of a `stat` call: success with a `FileStat`, or failure with
`errno` either `ENOENT` (`err true`) or anything else (`err false`). -/
inductive StatResult where
  | ok (st : FileStat)
  | err (isENOENT : Bool)
  deriving DecidableEq

/-- A stat oracle: the (immutable, single-threaded) filesystem view,
mapping an absolute pathname to the result `stat` would return for it. -/
def StatFS := List Char → StatResult

/-! ## path_build (path.c lines 61-70)

```c
void path_build(char * abs, const char * dir, const char * rel)
{
  size_t i = strlen(dir), n = strlen(rel) + 1;
  char s[MAX_PATH_LENGTH];
  memcpy(s, dir, i);
  if (s[i - 1] != JB_DIRECTORY_SEPARATOR) s[i++] = JB_DIRECTORY_SEPARATOR;
  memcpy(s + i, rel, n);
  memcpy(abs, s, i + n);
}
```
The separator is `'/'` on the non-Windows build modelled here. -/

/-- The constant `JB_PATH_MAX_LENGTH` (jb.h): 0x100 = 256.  `path_build` itself never
consults it; its buffers are fixed-size with no bounds check. -/
def JB_PATH_MAX_LENGTH : Nat := 256

/-- Shallow embedding of `path_build`: copy `dir`, append a separator
unless the last character of `dir` already is one, then append `rel`.
(For empty `dir` the C code reads `s[-1]`; the model reads a default
non-separator character, and all theorems assume `dir ≠ []`.) -/
def path_build (dir rel : List Char) : List Char :=
  if dir.getD (dir.length - 1) 'a' ≠ '/' then dir ++ ['/'] ++ rel else dir ++ rel

/-! ## compare_files (plunge.c lines 249-287) -/

/-- The C enum `compare_files_result` (plunge.c lines 40-51). -/
inductive CFR where
  | error
  | srcNoExist
  | srcNotFile
  | dstNoExist
  | dstNotFile
  | sameAge
  | dstNewer
  | srcLarger
  | srcNewer
  deriving DecidableEq

/-- Shallow embedding of `compare_files`.  The second component models the
writes to `*size_ptr`/`*mtime_ptr`: `some (size, mtime)` exactly when the
code reached lines 265-266 (source stat succeeded and the source is a
regular file). -/
def compare_files (src dst : StatResult) : CFR × Option (Nat × Int) :=
  match src with
  | .err true => (.srcNoExist, none)
  | .err false => (.error, none)
  | .ok s =>
    if s.kind ≠ .reg then (.srcNotFile, none)
    else
      let info := some (s.size, s.mtime)
      match dst with
      | .err true => (.dstNoExist, info)
      | .err false => (.error, info)
      | .ok d =>
        if d.kind ≠ .reg then (.dstNotFile, info)
        else if s.mtime = d.mtime then (.sameAge, info)
        else if s.mtime < d.mtime then (.dstNewer, info)
        else if s.size > d.size then (.srcLarger, info)
        else (.srcNewer, info)

/-! ## Theorems for claim C1 -/

/-- C1: `compare_files` classifies by the fixed step order: a source stat
failing with not-found yields SrcMissing; any other source stat failure
yields Error (the file is merely not copied, `process_copy` below returns
false for Error); a non-regular source yields SrcNotFile; a missing
destination yields DstMissing; a non-regular destination yields
DstNotFile; equal mtimes yield SameAge; a strictly newer destination
yields DstNewer regardless of sizes; a strictly newer source yields
SrcLargerNewer when the source is strictly larger and SrcNewer otherwise.
Size and mtime are recorded whenever the source is a regular file. -/
theorem compare_files_classification :
    (∀ d, compare_files (.err true) d = (.srcNoExist, none)) ∧
    (∀ d, compare_files (.err false) d = (.error, none)) ∧
    (∀ s d, s.kind ≠ .reg → compare_files (.ok s) d = (.srcNotFile, none)) ∧
    (∀ s d, s.kind = .reg → (compare_files (.ok s) d).2 = some (s.size, s.mtime)) ∧
    (∀ s, s.kind = .reg →
      compare_files (.ok s) (.err true) = (.dstNoExist, some (s.size, s.mtime))) ∧
    (∀ s d, s.kind = .reg → d.kind ≠ .reg →
      compare_files (.ok s) (.ok d) = (.dstNotFile, some (s.size, s.mtime))) ∧
    (∀ s d, s.kind = .reg → d.kind = .reg → s.mtime = d.mtime →
      compare_files (.ok s) (.ok d) = (.sameAge, some (s.size, s.mtime))) ∧
    (∀ s d, s.kind = .reg → d.kind = .reg → s.mtime < d.mtime →
      compare_files (.ok s) (.ok d) = (.dstNewer, some (s.size, s.mtime))) ∧
    (∀ s d, s.kind = .reg → d.kind = .reg → d.mtime < s.mtime → d.size < s.size →
      compare_files (.ok s) (.ok d) = (.srcLarger, some (s.size, s.mtime))) ∧
    (∀ s d, s.kind = .reg → d.kind = .reg → d.mtime < s.mtime → s.size ≤ d.size →
      compare_files (.ok s) (.ok d) = (.srcNewer, some (s.size, s.mtime))) := by
  refine ⟨fun d => rfl, fun d => rfl, ?_, ?_, ?_, ?_, ?_, ?_, ?_, ?_⟩
  · intro s d hs
    simp [compare_files, hs]
  · intro s d hs
    cases d with
    | ok d' =>
      simp only [compare_files, hs]
      repeat' split
      all_goals simp_all
    | err b => cases b <;> simp [compare_files, hs]
  · intro s hs
    simp [compare_files, hs]
  · intro s d hs hd
    simp [compare_files, hs, hd]
  · intro s d hs hd he
    simp [compare_files, hs, hd, he]
  · intro s d hs hd hlt
    have hne : s.mtime ≠ d.mtime := by omega
    simp [compare_files, hs, hd, hne, hlt]
  · intro s d hs hd hlt hsz
    have hne : s.mtime ≠ d.mtime := by omega
    have hnlt : ¬ s.mtime < d.mtime := by omega
    simp [compare_files, hs, hd, hne, hnlt, hsz]
  · intro s d hs hd hlt hsz
    have hne : s.mtime ≠ d.mtime := by omega
    have hnlt : ¬ s.mtime < d.mtime := by omega
    have hnsz : ¬ s.size > d.size := by omega
    simp [compare_files, hs, hd, hne, hnlt, hnsz]

/-- Witness for `compare_files_classification` at concrete stats. -/
theorem compare_files_classification_witness :
    compare_files (.ok ⟨.reg, 5, 10⟩) (.err true) = (.dstNoExist, some (5, 10)) ∧
    compare_files (.ok ⟨.reg, 5, 10⟩) (.ok ⟨.reg, 3, 4⟩) = (.srcLarger, some (5, 10)) := by
  constructor
  · exact compare_files_classification.2.2.2.2.1 ⟨.reg, 5, 10⟩ rfl
  · exact compare_files_classification.2.2.2.2.2.2.2.2.1 ⟨.reg, 5, 10⟩ ⟨.reg, 3, 4⟩
      rfl rfl (by decide) (by decide)

/-! ## path_output (path.c lines 78-107)

```c
void path_output(const char * path, int width)
{
  static const int v = 3, w = 6;
  int n, m, i, j, k;
  char s[MAX_LINE_LENGTH];
  m = (width < MAX_LINE_LENGTH) ? width - v : width;
  if ((n = strlen(path)) > m)
  {
    for (i = n - 1; i > w && path[i] != JB_DIRECTORY_SEPARATOR; --i);
    while ((k = m - (j = n - i)) < w) ++i;
    memcpy(s, path, n = k - v);
    while (n < k) s[n++] = '.';
    memcpy(s + n, path + i, j);
    n = m;
  }
  else memcpy(s, path, n);
  if (m < width) while (n < width) { s[n] = ((width - n) % 2) ? ' ' : '.'; ++n; }
  else s[n++] = '\n';
  s[n] = '\0';
  printf("%s", s);
}
```
-/

/-- The constant `MAX_LINE_LENGTH` (path.h): 78. -/
def MAX_LINE_LENGTH : Nat := 78

/-- The separator search loop
`for (i = n - 1; i > w && path[i] != SEP; --i);`: starting from `i`,
decrement while `i > 6` and `path[i]` is not a separator. -/
def sepSearch (path : List Char) : Nat → Nat
  | 0 => 0
  | i + 1 =>
    if 6 < i + 1 ∧ path.getD (i + 1) 'a' ≠ '/' then sepSearch path i else i + 1

/-- The tail adjustment loop `while ((k = m - (j = n - i)) < w) ++i;` on C
ints, via an exact fuel argument: the loop body runs while
`m - (n - i) < 6`, i.e. while `i < n - m + 6`, so `(n - m + 6 - i).toNat`
counts the remaining iterations exactly (when it is 0 the loop condition
is already false and the C loop also stops at once). -/
def tailAdjustF : Nat → Int → Int → Int → Int
  | 0, _, _, i => i
  | f + 1, m, n, i => if m - (n - i) < 6 then tailAdjustF f m n (i + 1) else i

/-- The tail adjustment loop itself: returns the final value of `i`. -/
def tailAdjust (m n i : Int) : Int :=
  tailAdjustF (n - m + 6 - i).toNat m n i

/-- The padding loop
`while (n < width) { s[n] = ((width - n) % 2) ? ' ' : '.'; ++n; }` via an
exact fuel argument (the loop extends `s` by one character per iteration,
and `n` is always the current length of `s`). -/
def padToF : Nat → Nat → List Char → List Char
  | 0, _, s => s
  | f + 1, width, s =>
    if s.length < width then
      padToF f width (s ++ [if (width - s.length) % 2 ≠ 0 then ' ' else '.'])
    else s

/-- The padding loop itself ("dot leader"): pad `s` to `width` characters,
the character at position `p` being a space when `(width - p) % 2` is odd
and a dot when it is even. -/
def padTo (width : Nat) (s : List Char) : List Char :=
  padToF (width - s.length) width s

/-- Specification-side closed form of the dot-leader padding: the
characters the padding loop appends from position `start` up to
`width - 1`. -/
def dotLeader (width start : Nat) : List Char :=
  (List.range (width - start)).map
    (fun t => if (width - (start + t)) % 2 ≠ 0 then ' ' else '.')

/-- Shallow embedding of `path_output`, returning the string the function
prints (the C code null-terminates a stack buffer and prints it). -/
def path_output (path : List Char) (width : Nat) : List Char :=
  let n := path.length
  let m := if width < MAX_LINE_LENGTH then width - 3 else width
  let s :=
    if m < n then
      let i := (tailAdjust (m : Int) (n : Int) (sepSearch path (n - 1) : Int)).toNat
      let k := m - (n - i)
      path.take (k - 3) ++ List.replicate (k - (k - 3)) '.' ++ path.drop i
    else path
  if m < width then padTo width s else s ++ ['\n']

/-! ### Formatter loop lemmas -/

/-- The tail adjustment loop computes `max i (n - m + 6)`. -/
lemma tailAdjustF_eq :
    ∀ (f : Nat) (m n i : Int), (n - m + 6 - i).toNat = f →
      tailAdjustF f m n i = max i (n - m + 6) := by
  intro f
  induction f with
  | zero =>
    intro m n i hf
    have hle : n - m + 6 ≤ i := by omega
    simp only [tailAdjustF]
    omega
  | succ f ih =>
    intro m n i hf
    have hlt : i < n - m + 6 := by omega
    have hc : m - (n - i) < 6 := by omega
    simp only [tailAdjustF, if_pos hc]
    rw [ih m n (i + 1) (by omega)]
    omega

lemma tailAdjust_eq (m n i : Int) : tailAdjust m n i = max i (n - m + 6) :=
  tailAdjustF_eq _ m n i rfl

/-- The separator search result never exceeds its starting index. -/
lemma sepSearch_le (path : List Char) : ∀ i, sepSearch path i ≤ i := by
  intro i
  induction i with
  | zero => simp [sepSearch]
  | succ i ih =>
    simp only [sepSearch]
    split
    · omega
    · omega

/-- Unfolding the dot leader one position at a time. -/
lemma dotLeader_cons (width start : Nat) (h : start < width) :
    dotLeader width start =
      (if (width - start) % 2 ≠ 0 then ' ' else '.') :: dotLeader width (start + 1) := by
  simp only [dotLeader]
  have h1 : width - start = (width - (start + 1)) + 1 := by omega
  rw [h1, List.range_succ_eq_map]
  simp only [List.map_cons, List.map_map, Nat.add_zero]
  congr 1
  · rw [← h1]
  · apply List.map_congr_left
    intro t ht
    simp only [Function.comp_apply]
    have h2 : start + (t + 1) = start + 1 + t := by omega
    rw [h2]

/-- The padding loop appends exactly the dot-leader characters. -/
lemma padToF_eq :
    ∀ (f width : Nat) (s : List Char), width - s.length = f →
      padToF f width s = s ++ dotLeader width s.length := by
  intro f
  induction f with
  | zero =>
    intro width s hf
    simp only [padToF, dotLeader]
    rw [hf]
    simp
  | succ f ih =>
    intro width s hf
    have hlt : s.length < width := by omega
    simp only [padToF, if_pos hlt]
    rw [ih width _ (by simp; omega)]
    rw [dotLeader_cons width s.length hlt]
    simp [List.append_assoc]

lemma padTo_eq (width : Nat) (s : List Char) :
    padTo width s = s ++ dotLeader width s.length :=
  padToF_eq _ width s rfl

lemma dotLeader_length (width start : Nat) :
    (dotLeader width start).length = width - start := by
  simp [dotLeader]

/-! ### path_output case analysis -/

/-- Fitting path at a width of at least the sentinel: newline, no pad. -/
lemma path_output_fit_nl (path : List Char) (width : Nat)
    (h78 : ¬ width < 78) (hfit : path.length ≤ width) :
    path_output path width = path ++ ['\n'] := by
  simp only [path_output, MAX_LINE_LENGTH]
  rw [show (if width < 78 then width - 3 else width) = width from if_neg h78,
    if_neg (show ¬ width < path.length by omega),
    if_neg (show ¬ width < width by omega)]

/-- Fitting path at a width below the sentinel: dot-leader padding. -/
lemma path_output_fit_pad (path : List Char) (width : Nat)
    (h78 : width < 78) (h1 : 1 ≤ width) (hfit : path.length ≤ width - 3) :
    path_output path width = path ++ dotLeader width path.length := by
  simp only [path_output, MAX_LINE_LENGTH]
  rw [show (if width < 78 then width - 3 else width) = width - 3 from if_pos h78,
    if_neg (show ¬ width - 3 < path.length by omega),
    if_pos (show width - 3 < width by omega), padTo_eq]

/-- Non-fitting path: the elided output in closed form.  `iE` is the final
value of the loop index `i`: the backward separator search result, moved
right until the space left of the tail reaches 6 columns. -/
lemma path_output_elide (path : List Char) (width m iE kE : Nat)
    (hm : m = if width < 78 then width - 3 else width)
    (h9 : 9 ≤ width) (hn : m < path.length)
    (hi : iE = max (sepSearch path (path.length - 1)) (path.length + 6 - m))
    (hk : kE = m - (path.length - iE)) :
    path_output path width =
      (path.take (kE - 3) ++ List.replicate 3 '.' ++ path.drop iE) ++
        (if width < 78 then dotLeader width m else ['\n']) := by
  have hm6 : 6 ≤ m := by
    rcases Nat.lt_or_ge width 78 with h | h
    · rw [hm, if_pos h]; omega
    · rw [hm, if_neg (by omega)]; omega
  set n := path.length with hn'
  have hi0 : sepSearch path (n - 1) ≤ n - 1 := sepSearch_le path (n - 1)
  have hiE_le : iE ≤ n := by
    rw [hi]
    have h1 : n + 6 - m ≤ n := by omega
    omega
  have hiE_ge : n + 6 - m ≤ iE := by rw [hi]; omega
  have hkE6 : 6 ≤ kE := by omega
  have hkE_lt : kE ≤ m := by omega
  -- the Int loop value agrees with the Nat closed form
  have hadj : (tailAdjust (m : Int) (n : Int) ((sepSearch path (n - 1) : Nat) : Int)).toNat
      = iE := by
    rw [tailAdjust_eq, hi]
    rcases Nat.le_total (sepSearch path (n - 1)) (n + 6 - m) with h | h
    · rw [Nat.max_eq_right h]
      have : ((sepSearch path (n - 1) : Nat) : Int) ≤ (n : Int) - m + 6 := by omega
      rw [max_eq_right this]
      omega
    · rw [Nat.max_eq_left h]
      have : (n : Int) - m + 6 ≤ ((sepSearch path (n - 1) : Nat) : Int) := by omega
      rw [max_eq_left this]
      omega
  simp only [path_output, MAX_LINE_LENGTH]
  rw [← hn', ← hm, if_pos hn, hadj]
  have hkk : m - (n - iE) = kE := hk.symm
  rw [hkk]
  have hrep : kE - (kE - 3) = 3 := by omega
  rw [hrep]
  rcases Nat.lt_or_ge width 78 with h | h
  · have hmw : m < width := by rw [hm, if_pos h]; omega
    rw [if_pos hmw, if_pos h, padTo_eq]
    have hlen : (path.take (kE - 3) ++ List.replicate 3 '.' ++ path.drop iE).length = m := by
      simp only [List.length_append, List.length_take, List.length_replicate,
        List.length_drop]
      have : kE - 3 ≤ n := by omega
      rw [min_eq_left this]
      omega
    rw [hlen]
  · have hmw : ¬ m < width := by rw [hm, if_neg (by omega)]; omega
    rw [if_neg hmw, if_neg (by omega)]

/-! ## Theorems for claim C6 -/

/-- C6 amended: when the path fits within `width − 3` and `width` is the
sentinel (78), the output is the path plus a newline, no padding; when it
fits below the sentinel, the output is the path right-padded with the
alternating space/dot leader to exactly `width`; when it does not fit,
the output is exactly `width` characters (plus a trailing newline at the
sentinel) made of a prefix of the path, a run of exactly 3 dots, and a
kept tail starting at index `max i0 (n + 6 − m)` where `i0` is the
backward separator search (stopping at position 6): the tail is shrunk
rightward — possibly past the separator into the middle of a component —
until the space left of it reaches 6 columns. -/
theorem path_display_amended (path : List Char) (width : Nat) (h9 : 9 ≤ width) :
    (width = 78 → path.length ≤ width - 3 → path_output path width = path ++ ['\n']) ∧
    (width < 78 → path.length ≤ width - 3 →
      path_output path width = path ++ dotLeader width path.length ∧
      (path_output path width).length = width) ∧
    (∀ m, m = (if width < 78 then width - 3 else width) → m < path.length →
      path_output path width =
        (path.take
            (m - (path.length -
              max (sepSearch path (path.length - 1)) (path.length + 6 - m)) - 3) ++
          List.replicate 3 '.' ++
          path.drop (max (sepSearch path (path.length - 1)) (path.length + 6 - m))) ++
          (if width < 78 then dotLeader width m else ['\n']) ∧
      (path_output path width).length = (if width < 78 then width else width + 1)) := by
  refine ⟨?_, ?_, ?_⟩
  · intro h78 hfit
    exact path_output_fit_nl path width (by omega) (by omega)
  · intro h78 hfit
    have he := path_output_fit_pad path width h78 (by omega) hfit
    refine ⟨he, ?_⟩
    rw [he]
    simp only [List.length_append, dotLeader_length]
    omega
  · intro m hm hn
    have hcase := path_output_elide path width m _ _ hm h9 hn rfl rfl
    refine ⟨hcase, ?_⟩
    rw [hcase]
    have hm6 : 6 ≤ m := by
      rcases Nat.lt_or_ge width 78 with h | h
      · rw [hm, if_pos h]; omega
      · rw [hm, if_neg (by omega)]; omega
    have ha : sepSearch path (path.length - 1) ≤ path.length - 1 := sepSearch_le path _
    have hub : max (sepSearch path (path.length - 1)) (path.length + 6 - m)
        ≤ path.length := by
      apply max_le <;> omega
    have hlb : path.length + 6 - m
        ≤ max (sepSearch path (path.length - 1)) (path.length + 6 - m) :=
      le_max_right _ _
    simp only [List.length_append, List.length_take, List.length_replicate,
      List.length_drop, apply_ite List.length, dotLeader_length, List.length_cons,
      List.length_nil]
    rcases Nat.lt_or_ge width 78 with h | h
    · have hmv : m = width - 3 := by rw [hm, if_pos h]
      rw [if_pos h, if_pos h]
      rw [min_eq_left (by omega)]
      omega
    · have hmv : m = width := by rw [hm, if_neg (by omega)]
      rw [if_neg (by omega), if_neg (by omega)]
      rw [min_eq_left (by omega)]
      omega

/-- Witness for `path_display_amended` at concrete inputs. -/
theorem path_display_amended_witness :
    path_output ['a', 'b'] 78 = ['a', 'b'] ++ ['\n'] ∧
    path_output ['a', 'b'] 20 = ['a', 'b'] ++ dotLeader 20 2 := by
  constructor
  · exact (path_display_amended ['a', 'b'] 78 (by decide)).1 rfl (by decide)
  · exact ((path_display_amended ['a', 'b'] 20 (by decide)).2.1 (by decide) (by decide)).1

/-- A 79-character path whose only separator sits at position 2: the
format of `"ab/" ++ 76 · 'c'`. -/
def PEx : List Char := ['a', 'b', '/'] ++ List.replicate 76 'c'

/-- The elided content `path_output` actually produces for `PEx` at the
sentinel width: first 3 characters, 3 dots, then the last 72 characters —
a tail that starts in the middle of the final path component. -/
def CEx : List Char := ['a', 'b', '/', '.', '.', '.'] ++ List.replicate 72 'c'

/-- Index `i` is a full path component boundary of `path`: the very start, or a
position immediately preceded by a separator. -/
def ComponentTailIdx (path : List Char) (i : Nat) : Prop :=
  i = 0 ∨ path.getD (i - 1) 'a' = '/'

/-- Counterexample to C6 as stated: at `PEx` (79 characters, whose only
separator is at position 2) and width 78, the output is
`"ab/...cc…c\n"`, whose kept tail `PEx.drop 7` begins in the middle of the
last component; no decomposition of the 78-character content as
"something, then a tail of whole path components" exists at all, so the
kept tail does not end at a full path component boundary, and the chosen
cut is not a separator found no closer than 6 characters from the end. -/
theorem path_display_claim_counterexample :
    path_output PEx 78 = CEx ++ ['\n'] ∧
    CEx.length = 78 ∧
    ¬ ∃ (u : List Char) (i : Nat), i < PEx.length ∧ ComponentTailIdx PEx i ∧
        CEx = u ++ PEx.drop i := by
  refine ⟨?_, by decide, ?_⟩
  · rw [path_output_elide PEx 78 78 7 6 (by decide) (by decide) (by decide)
      (by decide) (by decide)]
    decide
  · rintro ⟨u, i, hi, hb, heq⟩
    have hPlen : PEx.length = 79 := by decide
    have hClen : CEx.length = 78 := by decide
    have hlen : CEx.length = u.length + (PEx.length - i) := by
      rw [heq]; simp [List.length_append]
    have hi1 : 1 ≤ i := by omega
    have hsep : ∀ j, j < 79 → PEx.getD j 'a' = '/' → j = 2 := by decide
    have hi3 : i = 3 := by
      rcases hb with h0 | hs
      · omega
      · have := hsep (i - 1) (by omega) hs
        omega
    subst hi3
    have hu2 : u.length = 2 := by omega
    have h2 : CEx.getD 2 'a' = (u ++ PEx.drop 3).getD 2 'a' := by rw [heq]
    rw [List.getD_append_right u (PEx.drop 3) 'a' 2 (by omega)] at h2
    rw [hu2] at h2
    revert h2
    decide

/-! ## process_file (plunge.c lines 204-239) -/

/-- The error label (plunge.c line 66). -/
def STR_ERROR : String := "Error"

/-- Terse status messages (plunge.c lines 73-75). -/
def STR_NEW : String := "New"

def STR_LARGER : String := "Newer and larger"

def STR_NEWER : String := "Newer (not larger)"

/-- Verbose status messages (plunge.c lines 81-88). -/
def STR_SRC_NO_EXIST : String := "Src not found. . . . Skip"

def STR_SRC_NOT_FILE : String := "Src not a file . . . Skip"

def STR_DST_NO_EXIST : String := "Dst not found. . . . Copy"

def STR_DST_NOT_FILE : String := "Dst not a file . . . Skip"

def STR_SAME_AGE : String := "Same age . . . . . . Skip"

def STR_DST_NEWER : String := "Dst newer! . . . . . Skip"

def STR_SRC_LARGER : String := "Src newer & larger . Copy"

def STR_SRC_NEWER : String := "Src newer. . . . . . Copy"

/-- The width `j = MAX_LINE_LENGTH - 18` (plunge.c line 206): the terse field. -/
def PF_J : Nat := MAX_LINE_LENGTH - 18

/-- The width `k = MAX_LINE_LENGTH - 26` (plunge.c line 206): the verbose field. -/
def PF_K : Nat := MAX_LINE_LENGTH - 26

/-- The message chosen by the `switch` in `process_file` (lines 223-234):
`some` when `p` is set, `none` when it stays NULL. -/
def process_label (r : CFR) (v : Bool) : Option String :=
  match r with
  | .error => if v then some STR_ERROR else none
  | .srcNoExist => if v then some STR_SRC_NO_EXIST else none
  | .srcNotFile => if v then some STR_SRC_NOT_FILE else none
  | .dstNoExist => some (if v then STR_DST_NO_EXIST else STR_NEW)
  | .dstNotFile => if v then some STR_DST_NOT_FILE else none
  | .sameAge => if v then some STR_SAME_AGE else none
  | .dstNewer => if v then some STR_DST_NEWER else none
  | .srcLarger => some (if v then STR_SRC_LARGER else STR_LARGER)
  | .srcNewer => some (if v then STR_SRC_NEWER else STR_NEWER)

/-- The copy decision `b` set by the same `switch`. -/
def process_copy : CFR → Bool
  | .dstNoExist => true
  | .srcLarger => true
  | .srcNewer => true
  | _ => false

/-- The text `process_file` prints for one file (line 237):
`path_output(path, v ? k : j); puts(p);` when a message was chosen,
nothing otherwise (`puts` appends a newline). -/
def process_output (path : List Char) (r : CFR) (v : Bool) : List Char :=
  match process_label r v with
  | some p => path_output path (if v then PF_K else PF_J) ++ p.toList ++ ['\n']
  | none => []

/-! ## copy_file (plunge.c lines 302-322) and the per-file driver step -/

/-- The destination stat after a successful `copy_file`: `jb_file_write`
creates/overwrites a regular file with the `size` bytes read, then
`utime` stamps its modification time to the source's `mtime`
(lines 311-321). -/
def apply_copy (info : Nat × Int) : StatResult :=
  .ok ⟨.reg, info.1, info.2⟩

/-- One iteration of the driver loop for one relative path (process_file,
lines 216-238, with the copy effect of `copy_file` folded in): returns
the text printed, whether the Copier was invoked, and the destination's
stat after the step. -/
def run_file (fs : StatFS) (path src dst : List Char) (v dry : Bool) :
    List Char × Bool × StatResult :=
  let r := path_build src path
  let s := path_build dst path
  let res := compare_files (fs r) (fs s)
  let out := process_output path res.1 v
  let copying := process_copy res.1 && !dry
  let dstStat :=
    if copying then
      match res.2 with
      | some info => apply_copy info
      | none => fs s
    else fs s
  (out, copying, dstStat)

/-! ## Theorems for claim C4 -/

/-- C4: the decision engine copies exactly for DstMissing, SrcLargerNewer
and SrcNewer; terse mode labels exactly the three copying outcomes with
`New`, `Newer and larger`, `Newer (not larger)` and is silent otherwise;
verbose mode labels every outcome with distinct wording; whenever a label
is emitted, the relative path is first rendered by `path_output` into the
fixed field and the label appended. -/
theorem sync_decision_engine :
    (∀ r, process_copy r = true ↔ (r = .dstNoExist ∨ r = .srcLarger ∨ r = .srcNewer)) ∧
    (∀ r, (process_label r false).isSome = true ↔ process_copy r = true) ∧
    process_label .dstNoExist false = some STR_NEW ∧
    process_label .srcLarger false = some STR_LARGER ∧
    process_label .srcNewer false = some STR_NEWER ∧
    (∀ r, (process_label r true).isSome = true) ∧
    (∀ r r', process_label r true = process_label r' true → r = r') ∧
    (∀ path r v p, process_label r v = some p →
      process_output path r v =
        path_output path (if v then PF_K else PF_J) ++ p.toList ++ ['\n']) ∧
    (∀ path r v, process_label r v = none → process_output path r v = []) := by
  refine ⟨?_, ?_, rfl, rfl, rfl, ?_, ?_, ?_, ?_⟩
  · intro r; cases r <;> simp [process_copy]
  · intro r; cases r <;> simp [process_label, process_copy]
  · intro r; cases r <;> simp [process_label]
  · intro r r' h
    cases r <;> cases r' <;> first
      | rfl
      | (exfalso; revert h; decide)
  · intro path r v p h
    simp only [process_output, h]
  · intro path r v h
    simp only [process_output, h]

/-- Witness for `sync_decision_engine` at concrete inputs. -/
theorem sync_decision_engine_witness :
    CFR.sameAge = CFR.sameAge ∧
    process_output ['a'] .srcLarger false =
      path_output ['a'] PF_J ++ STR_LARGER.toList ++ ['\n'] := by
  constructor
  · exact sync_decision_engine.2.2.2.2.2.2.1 .sameAge .sameAge rfl
  · exact sync_decision_engine.2.2.2.2.2.2.2.1 ['a'] .srcLarger false STR_LARGER rfl

/-! ## Theorems for claim C7 -/

/-- C7: with dry-run active, for every filesystem view, path and
verbosity — hence every comparison outcome — the Copier is never invoked,
the destination's stat is unchanged, and the printed message is exactly
the one printed without dry-run. -/
theorem dry_run_frame :
    ∀ (fs : StatFS) (path src dst : List Char) (v : Bool),
      (run_file fs path src dst v true).2.1 = false ∧
      (run_file fs path src dst v true).2.2 = fs (path_build dst path) ∧
      (run_file fs path src dst v true).1 = (run_file fs path src dst v false).1 := by
  intro fs path src dst v
  refine ⟨?_, ?_, rfl⟩
  · simp [run_file]
  · simp [run_file]

/-! ## Theorems for claim C5 -/

/-- C5: after a successful copy (all bytes written, destination mtime
stamped to the source's), re-running the comparison on the same pair
yields SameAge, so no second copy happens.  Stated on the driver step:
whenever `run_file` actually copies, comparing the unchanged source stat
with the post-copy destination stat gives SameAge and a false copy
decision. -/
theorem copy_idempotent (fs : StatFS) (path src dst : List Char) (v : Bool)
    (h : (run_file fs path src dst v false).2.1 = true) :
    (compare_files (fs (path_build src path))
        (run_file fs path src dst v false).2.2).1 = .sameAge ∧
    process_copy (compare_files (fs (path_build src path))
        (run_file fs path src dst v false).2.2).1 = false := by
  have hmain : (compare_files (fs (path_build src path))
      (run_file fs path src dst v false).2.2).1 = .sameAge := by
    simp only [run_file, Bool.not_false, Bool.and_true] at h ⊢
    rw [h]
    cases hsrc : fs (path_build src path) with
    | err b =>
      exfalso
      cases b <;> simp [compare_files, hsrc, process_copy] at h
    | ok s =>
      by_cases hk : s.kind = .reg
      · have hinfo : (compare_files (.ok s) (fs (path_build dst path))).2
            = some (s.size, s.mtime) :=
          compare_files_classification.2.2.2.1 s _ hk
        rw [hinfo]
        exact congrArg Prod.fst
          (compare_files_classification.2.2.2.2.2.2.1 s ⟨.reg, s.size, s.mtime⟩ hk rfl rfl)
      · exfalso
        have : compare_files (.ok s) (fs (path_build dst path)) = (.srcNotFile, none) :=
          compare_files_classification.2.2.1 s _ hk
        rw [hsrc, this] at h
        simp [process_copy] at h
  exact ⟨hmain, by rw [hmain]; rfl⟩

/-- Witness for `copy_idempotent`: a source regular file, destination
missing, so the step copies; afterwards the pair compares as SameAge. -/
theorem copy_idempotent_witness :
    (run_file (fun p => if p = ['d', '/', 'a'] then .err true else .ok ⟨.reg, 1, 5⟩)
        ['a'] ['s'] ['d'] false false).2.1 = true ∧
    (compare_files ((fun p => if p = ['d', '/', 'a'] then .err true
          else .ok ⟨.reg, 1, 5⟩ : StatFS) (path_build ['s'] ['a']))
        (run_file (fun p => if p = ['d', '/', 'a'] then .err true else .ok ⟨.reg, 1, 5⟩)
          ['a'] ['s'] ['d'] false false).2.2).1 = .sameAge :=
  ⟨by decide,
    (copy_idempotent (fun p => if p = ['d', '/', 'a'] then .err true else .ok ⟨.reg, 1, 5⟩)
      ['a'] ['s'] ['d'] false (by decide)).1⟩

/-! ## jb_file_read (jb.c lines 179-199) and claim C8 -/

/-- Shallow embedding of `jb_file_read`: `fread(p, 1, size, f)` returns
the number of bytes actually available up to `size`; the check
`if (fread(...) < size)` makes any short read a failure (`NULL`), so on
success exactly the first `size` bytes are returned.  (The `malloc` and
`fopen` failure paths also return `NULL`; they carry no data and are
subsumed by the failure case.) -/
def jb_file_read (content : List Nat) (size : Nat) : Option (List Nat) :=
  if min size content.length < size then none else some (content.take size)

/-- Shallow embedding of the data flow of `copy_file` (lines 308-321):
read the source; on failure return with the destination untouched (the
abort happens before `jb_file_write` is reached); on success the
destination becomes a regular file holding the bytes read, stamped with
the source's mtime.  (Write failures are outside this claim's scope and
modelled as success.) -/
def copy_file_run (srcContent : List Nat) (size : Nat) (mtime : Int)
    (dst : StatResult) : StatResult :=
  match jb_file_read srcContent size with
  | none => dst
  | some buf => .ok ⟨.reg, buf.length, mtime⟩

/-- C8: the Copier reads exactly `size` bytes from the source; if fewer
bytes than requested can be read, the copy fails hard for that file and
the destination is neither created nor modified (the abort precedes any
write). -/
theorem copier_short_read (content : List Nat) (size : Nat) (mtime : Int)
    (dst : StatResult) :
    (content.length < size →
      jb_file_read content size = none ∧
      copy_file_run content size mtime dst = dst) ∧
    (size ≤ content.length →
      jb_file_read content size = some (content.take size) ∧
      (content.take size).length = size ∧
      copy_file_run content size mtime dst = .ok ⟨.reg, size, mtime⟩) := by
  constructor
  · intro h
    have hr : jb_file_read content size = none := by
      simp only [jb_file_read]
      rw [if_pos (by omega)]
    exact ⟨hr, by simp [copy_file_run, hr]⟩
  · intro h
    have hr : jb_file_read content size = some (content.take size) := by
      simp only [jb_file_read]
      rw [if_neg (by omega)]
    have hl : (content.take size).length = size := by
      simp [List.length_take]; omega
    exact ⟨hr, hl, by simp [copy_file_run, hr, hl]⟩

/-- Witness for `copier_short_read`: a 2-byte source read with
`size = 3` fails and leaves the destination stat alone; with `size = 2`
it succeeds with exactly 2 bytes. -/
theorem copier_short_read_witness :
    ((2 : Nat) < 3 ∧ jb_file_read [7, 8] 3 = none ∧
      copy_file_run [7, 8] 3 0 (.err true) = .err true) ∧
    ((2 : Nat) ≤ 2 ∧ jb_file_read [7, 8] 2 = some [7, 8]) :=
  ⟨⟨by decide, (copier_short_read [7, 8] 3 0 (.err true)).1 (by decide)⟩,
    ⟨by decide, ((copier_short_read [7, 8] 2 0 (.err true)).2 (by decide)).1⟩⟩

/-! ## purge_file (plunge.c lines 394-447) -/

/-- What `purge_file` does for one destination directory entry: nothing,
print one report line, recurse into the entry via `purge_files`, or
abort on a stat error (`perror("stat"); return;`, line 427). -/
inductive PurgeAction where
  | silent
  | report (line : List Char)
  | recurse
  | statError
  deriving DecidableEq

/-- The skip-list scan for a directory entry (lines 412-416): some entry
of `paths` is at least as long as the separator-terminated mapped path
`r` and starts with it (`strncmp(p, r, n) == 0`). -/
def skip_dir_match (r : List Char) (paths : List (List Char)) : Bool :=
  paths.any (fun p => decide (r.length ≤ p.length) && List.isPrefixOf r p)

/-- Shallow embedding of `purge_file` for one entry `name` of the
destination directory being scanned.  `fs` answers the `stat` on the
source-mapped path, `dir` is the directory flag from the directory
listing, and `offset` is where the destination-relative display begins.
The recursion into `purge_files` (line 446) is represented by the
`recurse` action. -/
def purge_file (fs : StatFS) (name : List Char) (dir : Bool) (src dst : List Char)
    (offset : Nat) (paths : List (List Char)) : PurgeAction :=
  if dir ∧ (name = ['.'] ∨ name = ['.', '.']) then .silent
  else
    let r := path_build src name
    let b : Bool :=
      if dir then skip_dir_match (r ++ ['/']) paths
      else paths.any (fun p => p == r)
    if b then (if dir then .recurse else .silent)
    else
      match fs r with
      | .ok _ => if dir then .recurse else .silent
      | .err true =>
        .report (path_output ((path_build dst name).drop offset) MAX_LINE_LENGTH)
      | .err false => .statError

/-- Whether a purge action prints a report line. -/
def reported : PurgeAction → Bool
  | .report _ => true
  | _ => false

/-! ## Theorems for claims C2 and C3 -/

/-- C2 amended: a non-dot directory entry is known when some SkipList
entry has the separator-terminated mapped path as a string prefix or the
existence check on the source succeeds (whatever kind of object it finds);
the scanner recurses if and only if the entry is known; an entry that is
not known is itself reported as a single line (and not recursed into);
a stat failure other than not-found yields neither. -/
theorem purge_dir_scan (fs : StatFS) (name src dst : List Char) (offset : Nat)
    (paths : List (List Char)) (hname : ¬ (name = ['.'] ∨ name = ['.', '.'])) :
    (purge_file fs name true src dst offset paths = .recurse ↔
      (skip_dir_match (path_build src name ++ ['/']) paths = true ∨
        ∃ f, fs (path_build src name) = .ok f)) ∧
    (reported (purge_file fs name true src dst offset paths) = true ↔
      (skip_dir_match (path_build src name ++ ['/']) paths = false ∧
        fs (path_build src name) = .err true)) ∧
    (skip_dir_match (path_build src name ++ ['/']) paths = false →
      fs (path_build src name) = .err true →
      purge_file fs name true src dst offset paths =
        .report (path_output ((path_build dst name).drop offset) MAX_LINE_LENGTH)) := by
  by_cases hb : skip_dir_match (path_build src name ++ ['/']) paths = true
  · have hA : purge_file fs name true src dst offset paths = .recurse := by
      simp [purge_file, hname, hb]
    rw [hA]
    refine ⟨by simp [hb], ?_, ?_⟩
    · constructor
      · intro h; simp [reported] at h
      · rintro ⟨h1, h2⟩; exact absurd h1 (by simp [hb])
    · intro h1 h2; exact absurd h1 (by simp [hb])
  · have hb' : skip_dir_match (path_build src name ++ ['/']) paths = false := by
      revert hb; cases skip_dir_match (path_build src name ++ ['/']) paths <;> simp
    cases hfs : fs (path_build src name) with
    | ok f =>
      have hA : purge_file fs name true src dst offset paths = .recurse := by
        simp [purge_file, hname, hb', hfs]
      rw [hA]
      refine ⟨by simp [hfs], ?_, ?_⟩
      · constructor
        · intro h; simp [reported] at h
        · rintro ⟨h1, h2⟩; cases h2
      · intro h1 h2; cases h2
    | err b =>
      cases b with
      | true =>
        have hA : purge_file fs name true src dst offset paths =
            .report (path_output ((path_build dst name).drop offset) MAX_LINE_LENGTH) := by
          simp [purge_file, hname, hb', hfs]
        rw [hA]
        refine ⟨?_, ?_, fun h1 h2 => rfl⟩
        · constructor
          · intro h; simp at h
          · rintro (h | ⟨f, hf⟩)
            · exact absurd h (by simp [hb'])
            · cases hf
        · simp [reported, hb', hfs]
      | false =>
        have hA : purge_file fs name true src dst offset paths = .statError := by
          simp [purge_file, hname, hb', hfs]
        rw [hA]
        refine ⟨?_, ?_, ?_⟩
        · constructor
          · intro h; simp at h
          · rintro (h | ⟨f, hf⟩)
            · exact absurd h (by simp [hb'])
            · cases hf
        · constructor
          · intro h; simp [reported] at h
          · rintro ⟨h1, h2⟩; simp at h2
        · intro h1 h2; simp at h2

/-- Witness for `purge_dir_scan`: a directory entry whose mapped path
exists in the source recurses. -/
theorem purge_dir_scan_witness :
    purge_file (fun _ => .ok ⟨.dir, 0, 0⟩) ['a'] true ['s'] ['d'] 0 [] = .recurse :=
  (purge_dir_scan (fun _ => .ok ⟨.dir, 0, 0⟩) ['a'] ['s'] ['d'] 0 [] (by decide)).1.mpr
    (Or.inr ⟨⟨.dir, 0, 0⟩, rfl⟩)

/-- The stat oracle of a source where every path is a regular file. -/
def fsRegFile : StatFS := fun _ => .ok ⟨.reg, 0, 0⟩

/-- The stat oracle of a source where every path is missing. -/
def fsMissing : StatFS := fun _ => .err true

/-- Counterexample to C2 as stated: (i) a directory entry recurses even
though its mapped path exists only as a regular file, not as a directory,
in the source; (ii) a directory entry recurses on a mere skip-list prefix
match even though its mapped path does not exist in the source at all;
(iii) an unknown directory entry is itself reported as a single line
(`"d/a"` formatted), rather than never being individually reported. -/
theorem purge_dir_claim_counterexample :
    purge_file fsRegFile ['a'] true ['s'] ['d'] 0 [] = .recurse ∧
    fsRegFile (path_build ['s'] ['a']) = .ok ⟨.reg, 0, 0⟩ ∧
    FKind.reg ≠ FKind.dir ∧
    purge_file fsMissing ['a'] true ['s'] ['d'] 0
      [['s', '/', 'a', '/', 'x']] = .recurse ∧
    fsMissing (path_build ['s'] ['a']) = .err true ∧
    purge_file fsMissing ['a'] true ['s'] ['d'] 0 [] =
      .report (path_output (['d', '/', 'a'].drop 0) MAX_LINE_LENGTH) := by
  refine ⟨by decide, rfl, by decide, by decide, rfl, by decide⟩

/-- C3: a file entry is reported if and only if its mapped path neither
exactly matches a SkipList entry nor exists in the source (assuming the
existence check itself does not fail: a stat error other than not-found
aborts with neither report nor silence); known files produce no output;
the reported line is the destination path from the given offset rendered
by the formatter at the full line width. -/
theorem purge_file_scan (fs : StatFS) (name src dst : List Char) (offset : Nat)
    (paths : List (List Char))
    (herr : fs (path_build src name) ≠ .err false) :
    (reported (purge_file fs name false src dst offset paths) = true ↔
      (¬ path_build src name ∈ paths ∧ ¬ ∃ f, fs (path_build src name) = .ok f)) ∧
    (path_build src name ∈ paths ∨ (∃ f, fs (path_build src name) = .ok f) →
      purge_file fs name false src dst offset paths = .silent) ∧
    (reported (purge_file fs name false src dst offset paths) = true →
      purge_file fs name false src dst offset paths =
        .report (path_output ((path_build dst name).drop offset) MAX_LINE_LENGTH)) := by
  by_cases hm : path_build src name ∈ paths
  · have hb : (paths.any (fun p => p == path_build src name)) = true := by
      simp only [List.any_eq_true, beq_iff_eq]
      exact ⟨_, hm, rfl⟩
    have hA : purge_file fs name false src dst offset paths = .silent := by
      simp [purge_file, hb]
    rw [hA]
    refine ⟨?_, fun h => rfl, ?_⟩
    · constructor
      · intro h; simp [reported] at h
      · rintro ⟨h1, h2⟩; exact absurd hm h1
    · intro h; simp [reported] at h
  · have hb : (paths.any (fun p => p == path_build src name)) = false := by
      rw [← Bool.not_eq_true]
      simp only [List.any_eq_true, beq_iff_eq]
      rintro ⟨p, hp, rfl⟩
      exact hm hp
    cases hfs : fs (path_build src name) with
    | ok f =>
      have hA : purge_file fs name false src dst offset paths = .silent := by
        simp [purge_file, hb, hfs]
      rw [hA]
      refine ⟨?_, fun h => rfl, ?_⟩
      · constructor
        · intro h; simp [reported] at h
        · rintro ⟨h1, h2⟩; exact absurd ⟨f, rfl⟩ h2
      · intro h; simp [reported] at h
    | err b =>
      cases b with
      | true =>
        have hA : purge_file fs name false src dst offset paths =
            .report (path_output ((path_build dst name).drop offset) MAX_LINE_LENGTH) := by
          simp [purge_file, hb, hfs]
        rw [hA]
        refine ⟨?_, ?_, fun h => rfl⟩
        · constructor
          · intro h
            refine ⟨hm, ?_⟩
            rintro ⟨f, hf⟩; cases hf
          · intro h; rfl
        · rintro (h | ⟨f, hf⟩)
          · exact absurd h hm
          · cases hf
      | false => exact absurd hfs herr

/-- Witness for `purge_file_scan`: an orphan file (no skip-list match,
missing from the source) is reported. -/
theorem purge_file_scan_witness :
    reported (purge_file fsMissing ['a'] false ['s'] ['d'] 0 []) = true :=
  (purge_file_scan fsMissing ['a'] ['s'] ['d'] 0 [] (by decide)).1.mpr
    ⟨by decide, by rintro ⟨f, hf⟩; cases hf⟩

/-! ## jb_trim (jb.c lines 234-245) and the driver (main, plunge.c 119-195) -/

/-- The C library `isspace` in the default locale: space, form feed,
newline, carriage return, horizontal tab, vertical tab. -/
def c_isspace (c : Char) : Bool :=
  c = ' ' || c = '\x0c' || c = '\n' || c = '\r' || c = '\t' || c = '\x0b'

/-- Shallow embedding of `jb_trim`: remove trailing white-space (by
repositioning the terminator), then skip leading white-space (by
advancing the returned pointer). -/
def jb_trim (s : List Char) : List Char :=
  ((s.reverse.dropWhile c_isspace).reverse).dropWhile c_isspace

/-- Heading over the per-file lines in terse mode (plunge.c lines 70-72). -/
def STR_TERSE_HEADING : String :=
  "                         Pathname                                 Status\n----------------------------------------------------------  ------------------"

/-- Heading over the per-file lines in verbose mode (lines 78-80). -/
def STR_VERBOSE_HEADING : String :=
  "                     Pathname                             Status        Action\n--------------------------------------------------  ------------------  ------"

/-- The purge banner (plunge.c line 67). -/
def STR_PURGE : String := "\nThe following files in DEST may need to be purged:"

/-- What a run of `main` does, as far as the claims observe it. -/
structure MainResult where
  output : List (List Char)
  purgeRan : Bool
  exitCode : Nat
  deriving DecidableEq

/-- Shallow embedding of the driver `main` (after successful argument
parsing): read the input lines, trim each and drop the ones that are
blank after trimming (line 142); if no line survives, return success
immediately (line 155) — before the heading (line 165), the per-file
loop (line 173) and the purge section (lines 178-184).  Otherwise print
the heading, one `process_file` output per surviving line, and, when
purge is requested, the purge banner followed by the purge scan (the
scan's own lines are beyond this surface model; `purgeRan` records that
it ran). -/
def main_model (fs : StatFS) (lines : List (List Char)) (src dst : List Char)
    (verbose dry purge : Bool) : MainResult :=
  let a := lines.filterMap (fun l =>
    let t := jb_trim l
    if t.length < 1 then none else some t)
  if a = [] then ⟨[], false, 0⟩
  else
    ⟨(if verbose then STR_VERBOSE_HEADING else STR_TERSE_HEADING).toList ::
        (a.map (fun p => (run_file fs p src dst verbose dry).1) ++
          (if purge then [STR_PURGE.toList] else [])),
      purge, 0⟩

/-! ## Theorems for claim C10 -/

/-- C10: if no input line is non-blank after trimming, the program exits
with success producing no per-file output at all — not even the column
heading — and the Purge Scanner is never run and no purge banner is
printed, even when the purge flag was given. -/
theorem main_empty_input (fs : StatFS) (lines : List (List Char))
    (src dst : List Char) (verbose dry purge : Bool)
    (h : ∀ l ∈ lines, (jb_trim l).length < 1) :
    main_model fs lines src dst verbose dry purge = ⟨[], false, 0⟩ := by
  have ha : lines.filterMap (fun l =>
      let t := jb_trim l
      if t.length < 1 then none else some t) = [] := by
    rw [List.filterMap_eq_nil_iff]
    intro l hl
    simp [h l hl]
  simp only [main_model, ha, if_pos]

/-- Witness for `main_empty_input`: two blank lines, purge requested. -/
theorem main_empty_input_witness :
    (∀ l ∈ [[' ', '\t'], ([] : List Char)], (jb_trim l).length < 1) ∧
    main_model fsMissing [[' ', '\t'], []] ['s'] ['d'] true true true =
      ⟨[], false, 0⟩ :=
  ⟨by decide,
    main_empty_input fsMissing [[' ', '\t'], []] ['s'] ['d'] true true true (by decide)⟩

/-! ## Theorems for claim C9 -/

/-- Helper: for a non-empty root, `path_build` concatenates with exactly
one separator, inserting none when the root already ends in one. -/
lemma path_build_sep (dir rel : List Char) (h : dir ≠ []) :
    (dir.getLast? ≠ some '/' → path_build dir rel = dir ++ ['/'] ++ rel) ∧
    (dir.getLast? = some '/' → path_build dir rel = dir ++ rel) := by
  have hne : dir.length ≠ 0 := by
    intro h0
    exact h (List.length_eq_zero.mp h0)
  have hlen : dir.length - 1 < dir.length := by omega
  have hg : dir.getLast? = some (dir.getD (dir.length - 1) 'a') := by
    rw [List.getLast?_eq_getElem?, List.getElem?_eq_getElem hlen,
      List.getD_eq_getElem dir 'a' hlen]
  constructor
  · intro hns
    have hd : dir.getD (dir.length - 1) 'a' ≠ '/' := by
      intro hc
      exact hns (by rw [hg, hc])
    rw [path_build, if_pos hd]
  · intro heq
    have hd : dir.getD (dir.length - 1) 'a' = '/' :=
      Option.some.inj (hg.symm.trans heq)
    rw [path_build, if_neg (fun hcon => hcon hd)]

set_option maxRecDepth 4000 in
/-- C9 at the failing input: `path_build` performs no length check; on a
250-character root and a 100-character relative path it returns the full
351-character concatenation, strictly longer than the configured maximum
path length (`JB_PATH_MAX_LENGTH` = 256), instead of failing with a
PathTooLong error (in the C code this writes past the fixed buffers). -/
theorem path_build_overflow :
    path_build (List.replicate 250 'a') (List.replicate 100 'b') =
      List.replicate 250 'a' ++ ['/'] ++ List.replicate 100 'b' ∧
    (path_build (List.replicate 250 'a') (List.replicate 100 'b')).length = 351 ∧
    JB_PATH_MAX_LENGTH <
      (path_build (List.replicate 250 'a') (List.replicate 100 'b')).length := by
  refine ⟨?_, ?_, ?_⟩ <;> decide

end Plunge
